import Mathlib

/-!
Shallow embedding of the bbgo grid strategy
(`pkg/strategy/grid/strategy.go`) and of the parts of the order model it
relies on. Prices, quantities and balances are embedded as rationals;
Go `int` values as `Int`; order ids as `Nat`. Fallible gateway calls are
embedded as `Except Unit` results produced by an explicitly state-threaded
executor function.
-/

namespace Grid

/-- Order side, from `types.SideTypeBuy` / `types.SideTypeSell`. -/
inductive SideType where
  | buy
  | sell
deriving DecidableEq, Repr

/-- Order type, from `types.OrderTypeLimit` / `types.OrderTypeMarket`. -/
inductive OrderType where
  | limit
  | market
deriving DecidableEq, Repr

/-- Order status, from `types.OrderStatus`. The constructor `partFilled`
embeds the source's `OrderStatusPartiallyFilled`. -/
inductive OrderStatus where
  | new
  | partFilled
  | filled
  | canceled
  | rejected
deriving DecidableEq, Repr

/-- The fields of `types.Market` the strategy reads: the base and quote
currency names. -/
structure Market where
  baseCurrency : String
  quoteCurrency : String
deriving DecidableEq, Repr

/-- The fields of `types.SubmitOrder` the strategy fills in
(`updateBidOrders` / `updateAskOrders` in strategy.go). -/
structure SubmitOrder where
  symbol : String
  side : SideType
  orderType : OrderType
  quantity : ℚ
  price : ℚ
  timeInForce : String
deriving DecidableEq, Repr

/-- The fields of `types.Order` the strategy reads: the exchange-assigned
id, the instrument symbol, the side, price, quantity and status. -/
structure Order where
  orderID : Nat
  symbol : String
  side : SideType
  price : ℚ
  quantity : ℚ
  status : OrderStatus
deriving DecidableEq, Repr

/-- Modelled from the spec: `types.LocalActiveOrderBook` is not under src/
(only its callers are). Per spec section 3, it is two disjoint mappings from
order id to Order, one holding only Buy-side orders and one holding only
Sell-side orders; we embed each mapping as a list of orders with distinct
ids. -/
structure LocalActiveOrderBook where
  bids : List Order
  asks : List Order
deriving DecidableEq, Repr

/-- Modelled from the spec: `types.NewLocalActiveOrderBook` — the book is
reset to empty on (re)start. -/
def NewLocalActiveOrderBook : LocalActiveOrderBook := ⟨[], []⟩

/-- Remove every order with the given id from a side's list. -/
def removeID (l : List Order) (id : Nat) : List Order :=
  l.filter (fun o => o.orderID ≠ id)

namespace LocalActiveOrderBook

/-- Modelled from the spec: `Delete(order)` removes the entry with the
order's id; a no-op if the id is absent. -/
def Delete (b : LocalActiveOrderBook) (o : Order) : LocalActiveOrderBook :=
  ⟨removeID b.bids o.orderID, removeID b.asks o.orderID⟩

/-- Modelled from the spec: `WriteOff(order)` removes the entry with the
order's id, "distinguished from Delete only for observability, not
behavior" (spec section 4.1). -/
def WriteOff (b : LocalActiveOrderBook) (o : Order) : LocalActiveOrderBook :=
  b.Delete o

/-- Modelled from the spec: insert a single order — an idempotent upsert by
id into the mapping matching the order's side (and an id appears in at most
one mapping, so any stale entry under the same id is dropped first). -/
def addOne (b : LocalActiveOrderBook) (o : Order) : LocalActiveOrderBook :=
  let b' := b.Delete o
  match o.side with
  | SideType.buy => ⟨b'.bids ++ [o], b'.asks⟩
  | SideType.sell => ⟨b'.bids, b'.asks ++ [o]⟩

/-- Modelled from the spec: `Add(orders...)` upserts each order in turn. -/
def Add (b : LocalActiveOrderBook) (os : List Order) : LocalActiveOrderBook :=
  os.foldl addOne b

/-- Modelled from the spec: `NumOfBids()` — the size of the buy mapping
(also `Bids.Len()` in strategy.go). -/
def NumOfBids (b : LocalActiveOrderBook) : Nat :=
  b.bids.length

/-- Modelled from the spec: `NumOfAsks()` — the size of the sell mapping
(also `Asks.Len()` in strategy.go). -/
def NumOfAsks (b : LocalActiveOrderBook) : Nat :=
  b.asks.length

/-- Modelled from the spec: `Orders()` — the snapshot of all resting
orders, used for cancellation at shutdown. -/
def Orders (b : LocalActiveOrderBook) : List Order :=
  b.bids ++ b.asks

end LocalActiveOrderBook

/-- Whether an id is currently tracked on either side of the book. -/
def trackedIn (b : LocalActiveOrderBook) (id : Nat) : Bool :=
  (b.bids ++ b.asks).any (fun o => o.orderID = id)

/-- The configuration fields of `Strategy` (strategy.go lines 55-70) that
the order logic reads: symbol, grid pitch (`GridPips`, a fixedpoint value),
target per-side order count (`GridNum`, a Go int), per-rung quantity
(`BaseQuantity`) and the market's currency pair. -/
structure Strategy where
  symbol : String
  gridPips : ℚ
  gridNum : Int
  baseQuantity : ℚ
  market : Market
deriving DecidableEq, Repr

/-- The order-update callback registered by `Run` via
`session.Stream.OnOrderUpdate` (strategy.go lines 197-216): ignore other
symbols; on Filled write the order off; on Canceled or Rejected delete it;
on any other status upsert it. -/
def handleOrderUpdate (symbol : String) (b : LocalActiveOrderBook) (o : Order) :
    LocalActiveOrderBook :=
  if o.symbol ≠ symbol then b
  else
    match o.status with
    | OrderStatus.filled => b.WriteOff o
    | OrderStatus.canceled => b.Delete o
    | OrderStatus.rejected => b.Delete o
    | _ => b.Add [o]

/-- Go map lookup `balances[currency]`, returning the `Available` amount
when the key is present. -/
def lookupBal : List (String × ℚ) → String → Option ℚ
  | [], _ => none
  | (c, a) :: rest, cur => if c = cur then some a else lookupBal rest cur

/-- The price ladder loop of `updateBidOrders` (strategy.go lines 98-111):
`n` orders at `startPrice`, stepping down by `gridPips` per rung, each a
GTC limit buy of `baseQuantity` on the configured symbol. -/
def bidOrdersFrom (s : Strategy) (startPrice : ℚ) : Nat → List SubmitOrder
  | 0 => []
  | Nat.succ n =>
      { symbol := s.symbol, side := SideType.buy, orderType := OrderType.limit,
        quantity := s.baseQuantity, price := startPrice, timeInForce := "GTC" }
        :: bidOrdersFrom s (startPrice - s.gridPips) n

/-- The price ladder loop of `updateAskOrders` (strategy.go lines 143-156):
`n` orders at `startPrice`, stepping up by `gridPips` per rung, each a
GTC limit sell of `baseQuantity` on the configured symbol. -/
def askOrdersFrom (s : Strategy) (startPrice : ℚ) : Nat → List SubmitOrder
  | 0 => []
  | Nat.succ n =>
      { symbol := s.symbol, side := SideType.sell, orderType := OrderType.limit,
        quantity := s.baseQuantity, price := startPrice, timeInForce := "GTC" }
        :: askOrdersFrom s (startPrice + s.gridPips) n

/-- The guard-and-plan phase of `updateBidOrders` (strategy.go lines
77-111): skip (no batch) when the quote-currency balance is absent or
non-positive, when the deficit `GridNum - NumOfBids` is non-positive, or
when the lower band is non-positive; otherwise the ladder batch. The
guards are checked in the source's order. -/
def bidSubmitOrders (s : Strategy) (balances : List (String × ℚ))
    (downBand : ℚ) (numOfBids : Nat) : List SubmitOrder :=
  match lookupBal balances s.market.quoteCurrency with
  | none => []
  | some available =>
      if available ≤ 0 then []
      else if s.gridNum - (numOfBids : Int) ≤ 0 then []
      else if downBand ≤ 0 then []
      else bidOrdersFrom s downBand (s.gridNum - (numOfBids : Int)).toNat

/-- The guard-and-plan phase of `updateAskOrders` (strategy.go lines
122-156), symmetric to the bid side with the base currency, `NumOfAsks`
and the upper band. -/
def askSubmitOrders (s : Strategy) (balances : List (String × ℚ))
    (upBand : ℚ) (numOfAsks : Nat) : List SubmitOrder :=
  match lookupBal balances s.market.baseCurrency with
  | none => []
  | some available =>
      if available ≤ 0 then []
      else if s.gridNum - (numOfAsks : Int) ≤ 0 then []
      else if upBand ≤ 0 then []
      else askOrdersFrom s upBand (s.gridNum - (numOfAsks : Int)).toNat

/-- An order executor (`bbgo.OrderExecutor.SubmitOrders`): its hidden
exchange-side state of type `σ` is threaded explicitly; submission either
fails (`Except.error`) or returns the exchange's view of the created
orders. -/
def OrderExecutor (σ : Type) : Type :=
  σ → List SubmitOrder → Except Unit (List Order) × σ

/-- The outcome of one side's update: the book afterwards, the batch that
was passed to `SubmitOrders` (empty when the side was skipped and no
gateway call was made), and the executor state afterwards. -/
structure SideResult (σ : Type) where
  book : LocalActiveOrderBook
  submitted : List SubmitOrder
  st : σ
deriving Repr

/-- `updateBidOrders` (strategy.go lines 77-120): when the guards skip the
side, return with the book untouched; otherwise submit the batch, and on
error log and return with the book untouched (no error propagates), on
success add the returned orders to the book. -/
def updateBidOrders {σ : Type} (submit : OrderExecutor σ) (s : Strategy)
    (balances : List (String × ℚ)) (downBand : ℚ)
    (b : LocalActiveOrderBook) (st : σ) : SideResult σ :=
  match bidSubmitOrders s balances downBand b.NumOfBids with
  | [] => ⟨b, [], st⟩
  | subs =>
      match submit st subs with
      | (Except.error _, st') => ⟨b, subs, st'⟩
      | (Except.ok orders, st') => ⟨b.Add orders, subs, st'⟩

/-- `updateAskOrders` (strategy.go lines 122-166), symmetric to
`updateBidOrders`. -/
def updateAskOrders {σ : Type} (submit : OrderExecutor σ) (s : Strategy)
    (balances : List (String × ℚ)) (upBand : ℚ)
    (b : LocalActiveOrderBook) (st : σ) : SideResult σ :=
  match askSubmitOrders s balances upBand b.NumOfAsks with
  | [] => ⟨b, [], st⟩
  | subs =>
      match submit st subs with
      | (Except.error _, st') => ⟨b, subs, st'⟩
      | (Except.ok orders, st') => ⟨b.Add orders, subs, st'⟩

/-- The outcome of one replenishment tick: the book afterwards, the batch
submitted on each side, and the executor state afterwards. -/
structure TickResult (σ : Type) where
  book : LocalActiveOrderBook
  bidSubmitted : List SubmitOrder
  askSubmitted : List SubmitOrder
  st : σ
deriving Repr

/-- `updateOrders` (strategy.go lines 168-182): update the bid side when
`Bids.Len() < GridNum`, then the ask side when `Asks.Len() < GridNum`
(the ask-side count being read from the book after the bid update). -/
def updateOrders {σ : Type} (submit : OrderExecutor σ) (s : Strategy)
    (balances : List (String × ℚ)) (downBand upBand : ℚ)
    (b : LocalActiveOrderBook) (st : σ) : TickResult σ :=
  let p1 :=
    if (b.NumOfBids : Int) < s.gridNum
    then updateBidOrders submit s balances downBand b st
    else ⟨b, [], st⟩
  let p2 :=
    if (p1.book.NumOfAsks : Int) < s.gridNum
    then updateAskOrders submit s balances upBand p1.book p1.st
    else ⟨p1.book, [], p1.st⟩
  ⟨p2.book, p1.submitted, p2.submitted, p2.st⟩

/-- The `GridNum` normalization at the start of `Run` (strategy.go lines
185-187): a configured value of 0 is replaced by 2. -/
def runGridNum (s : Strategy) : Strategy :=
  if s.gridNum = 0 then { s with gridNum := 2 } else s

/-- Sample market used in concrete instantiations. -/
def sampleMarket : Market := ⟨"BTC", "USDT"⟩

/-- Sample configuration: N = 3 orders per side, step 1, quantity 1. -/
def sampleStrategy : Strategy := ⟨"BTCUSDT", 1, 3, 1, sampleMarket⟩

/-- Sample account with sufficient balance on both sides. -/
def sampleBalances : List (String × ℚ) := [("USDT", 10000), ("BTC", 10)]

theorem bidOrdersFrom_length (s : Strategy) (p : ℚ) (n : Nat) :
    (bidOrdersFrom s p n).length = n := by
  induction n generalizing p with
  | zero => rfl
  | succ n ih => simp [bidOrdersFrom, ih]

theorem askOrdersFrom_length (s : Strategy) (p : ℚ) (n : Nat) :
    (askOrdersFrom s p n).length = n := by
  induction n generalizing p with
  | zero => rfl
  | succ n ih => simp [askOrdersFrom, ih]

theorem bidOrdersFrom_get (s : Strategy) (p : ℚ) (n i : Nat)
    (h : i < (bidOrdersFrom s p n).length) :
    (bidOrdersFrom s p n).get ⟨i, h⟩ =
      { symbol := s.symbol, side := SideType.buy, orderType := OrderType.limit,
        quantity := s.baseQuantity, price := p - (i : ℚ) * s.gridPips,
        timeInForce := "GTC" } := by
  induction n generalizing p i with
  | zero => simp [bidOrdersFrom] at h
  | succ n ih =>
      cases i with
      | zero => simp [bidOrdersFrom]
      | succ i =>
          have hlt : i < (bidOrdersFrom s (p - s.gridPips) n).length := by
            rw [bidOrdersFrom_length]
            have := h
            rw [bidOrdersFrom_length] at this
            omega
          have hrec := ih (p - s.gridPips) i hlt
          simp only [bidOrdersFrom, List.get] at hrec ⊢
          rw [hrec]
          congr 1
          push_cast
          ring

theorem askOrdersFrom_get (s : Strategy) (p : ℚ) (n i : Nat)
    (h : i < (askOrdersFrom s p n).length) :
    (askOrdersFrom s p n).get ⟨i, h⟩ =
      { symbol := s.symbol, side := SideType.sell, orderType := OrderType.limit,
        quantity := s.baseQuantity, price := p + (i : ℚ) * s.gridPips,
        timeInForce := "GTC" } := by
  induction n generalizing p i with
  | zero => simp [askOrdersFrom] at h
  | succ n ih =>
      cases i with
      | zero => simp [askOrdersFrom]
      | succ i =>
          have hlt : i < (askOrdersFrom s (p + s.gridPips) n).length := by
            rw [askOrdersFrom_length]
            have := h
            rw [askOrdersFrom_length] at this
            omega
          have hrec := ih (p + s.gridPips) i hlt
          simp only [askOrdersFrom, List.get] at hrec ⊢
          rw [hrec]
          congr 1
          push_cast
          ring

theorem bidSubmitOrders_pos (s : Strategy) (balances : List (String × ℚ))
    (downBand : ℚ) (numOfBids : Nat) (a : ℚ)
    (ha : lookupBal balances s.market.quoteCurrency = some a) (hpos : 0 < a)
    (hdef : 0 < s.gridNum - (numOfBids : Int)) (hband : 0 < downBand) :
    bidSubmitOrders s balances downBand numOfBids =
      bidOrdersFrom s downBand (s.gridNum - (numOfBids : Int)).toNat := by
  simp only [bidSubmitOrders, ha]
  rw [if_neg (by exact not_le.mpr hpos), if_neg (by omega), if_neg (by exact not_le.mpr hband)]

theorem askSubmitOrders_pos (s : Strategy) (balances : List (String × ℚ))
    (upBand : ℚ) (numOfAsks : Nat) (a : ℚ)
    (ha : lookupBal balances s.market.baseCurrency = some a) (hpos : 0 < a)
    (hdef : 0 < s.gridNum - (numOfAsks : Int)) (hband : 0 < upBand) :
    askSubmitOrders s balances upBand numOfAsks =
      askOrdersFrom s upBand (s.gridNum - (numOfAsks : Int)).toNat := by
  simp only [askSubmitOrders, ha]
  rw [if_neg (by exact not_le.mpr hpos), if_neg (by omega), if_neg (by exact not_le.mpr hband)]

theorem bidSubmitOrders_nonpos (s : Strategy) (balances : List (String × ℚ))
    (downBand : ℚ) (numOfBids : Nat)
    (hdef : s.gridNum - (numOfBids : Int) ≤ 0) :
    bidSubmitOrders s balances downBand numOfBids = [] := by
  unfold bidSubmitOrders
  cases lookupBal balances s.market.quoteCurrency with
  | none => rfl
  | some a =>
      simp only
      split
      · rfl
      · rfl

theorem askSubmitOrders_nonpos (s : Strategy) (balances : List (String × ℚ))
    (upBand : ℚ) (numOfAsks : Nat)
    (hdef : s.gridNum - (numOfAsks : Int) ≤ 0) :
    askSubmitOrders s balances upBand numOfAsks = [] := by
  unfold askSubmitOrders
  cases lookupBal balances s.market.baseCurrency with
  | none => rfl
  | some a =>
      simp only
      split
      · rfl
      · rfl

theorem mem_removeID {l : List Order} {id : Nat} {x : Order} :
    x ∈ removeID l id ↔ x ∈ l ∧ x.orderID ≠ id := by
  simp [removeID]

theorem removeID_eq_self {l : List Order} {id : Nat}
    (h : ∀ x ∈ l, x.orderID ≠ id) : removeID l id = l := by
  apply List.filter_eq_self.mpr
  intro x hx
  simpa using h x hx

theorem trackedIn_false_iff {b : LocalActiveOrderBook} {id : Nat} :
    trackedIn b id = false ↔ ∀ x ∈ b.bids ++ b.asks, x.orderID ≠ id := by
  simp [trackedIn, or_imp, forall_and]

theorem Delete_of_untracked (b : LocalActiveOrderBook) (o : Order)
    (h : trackedIn b o.orderID = false) : b.Delete o = b := by
  have hmem := trackedIn_false_iff.mp h
  simp only [LocalActiveOrderBook.Delete]
  have hb : removeID b.bids o.orderID = b.bids :=
    removeID_eq_self (fun x hx => hmem x (List.mem_append_left _ hx))
  have ha : removeID b.asks o.orderID = b.asks :=
    removeID_eq_self (fun x hx => hmem x (List.mem_append_right _ hx))
  rw [hb, ha]

theorem trackedIn_Delete_self (b : LocalActiveOrderBook) (o : Order) :
    trackedIn (b.Delete o) o.orderID = false := by
  apply trackedIn_false_iff.mpr
  intro x hx
  rcases List.mem_append.mp hx with hx' | hx'
  · exact (mem_removeID.mp hx').2
  · exact (mem_removeID.mp hx').2

theorem trackedIn_Delete_pres (b : LocalActiveOrderBook) (o : Order) (id : Nat)
    (h : trackedIn b id = false) : trackedIn (b.Delete o) id = false := by
  have hmem := trackedIn_false_iff.mp h
  apply trackedIn_false_iff.mpr
  intro x hx
  rcases List.mem_append.mp hx with hx' | hx'
  · exact hmem x (List.mem_append_left _ (mem_removeID.mp hx').1)
  · exact hmem x (List.mem_append_right _ (mem_removeID.mp hx').1)

theorem trackedIn_addOne_pres (b : LocalActiveOrderBook) (o : Order) (id : Nat)
    (h : trackedIn b id = false) (hne : o.orderID ≠ id) :
    trackedIn (b.addOne o) id = false := by
  have h' := trackedIn_Delete_pres b o id h
  have hmem := trackedIn_false_iff.mp h'
  apply trackedIn_false_iff.mpr
  intro x hx
  cases hs : o.side with
  | buy =>
      simp only [LocalActiveOrderBook.addOne, hs] at hx
      rcases List.mem_append.mp hx with hx' | hx'
      · rcases List.mem_append.mp hx' with hx'' | hx''
        · exact hmem x (List.mem_append_left _ hx'')
        · rcases List.mem_singleton.mp hx'' with rfl
          exact hne
      · exact hmem x (List.mem_append_right _ hx')
  | sell =>
      simp only [LocalActiveOrderBook.addOne, hs] at hx
      rcases List.mem_append.mp hx with hx' | hx'
      · exact hmem x (List.mem_append_left _ hx')
      · rcases List.mem_append.mp hx' with hx'' | hx''
        · exact hmem x (List.mem_append_right _ hx'')
        · rcases List.mem_singleton.mp hx'' with rfl
          exact hne

theorem handleOrderUpdate_terminal (symbol : String) (b : LocalActiveOrderBook)
    (o : Order) (hsym : o.symbol = symbol)
    (hterm : o.status = OrderStatus.filled ∨ o.status = OrderStatus.canceled ∨
             o.status = OrderStatus.rejected) :
    handleOrderUpdate symbol b o = b.Delete o := by
  rcases hterm with h | h | h <;>
    simp [handleOrderUpdate, hsym, h, LocalActiveOrderBook.WriteOff]

theorem trackedIn_handle_pres (symbol : String) (b : LocalActiveOrderBook)
    (o : Order) (id : Nat) (h : trackedIn b id = false)
    (hcase : o.orderID ≠ id ∨ o.symbol ≠ symbol ∨
      o.status = OrderStatus.filled ∨ o.status = OrderStatus.canceled ∨
      o.status = OrderStatus.rejected) :
    trackedIn (handleOrderUpdate symbol b o) id = false := by
  by_cases hs : o.symbol = symbol
  · rcases hcase with hne | hsym' | hst | hst | hst
    · cases hst : o.status <;>
        simp only [handleOrderUpdate, hs, hst, ne_eq, not_true_eq_false,
          if_false, LocalActiveOrderBook.WriteOff, LocalActiveOrderBook.Add,
          List.foldl_cons, List.foldl_nil] <;>
        first
          | exact trackedIn_Delete_pres b o id h
          | exact trackedIn_addOne_pres b o id h hne
    · exact absurd hs hsym'
    all_goals
      rw [handleOrderUpdate_terminal symbol b o hs (by simp [hst])]
      exact trackedIn_Delete_pres b o id h
  · simp [handleOrderUpdate, hs, h]

theorem trackedIn_foldl_pres (symbol : String) (id : Nat) (L : List Order)
    (b : LocalActiveOrderBook) (h : trackedIn b id = false)
    (hL : ∀ o' ∈ L, o'.orderID = id → o'.symbol = symbol →
      (o'.status = OrderStatus.filled ∨ o'.status = OrderStatus.canceled ∨
       o'.status = OrderStatus.rejected)) :
    trackedIn (L.foldl (handleOrderUpdate symbol) b) id = false := by
  induction L generalizing b with
  | nil => simpa using h
  | cons o' L ih =>
      simp only [List.foldl_cons]
      apply ih
      · apply trackedIn_handle_pres symbol b o' id h
        by_cases h1 : o'.orderID = id
        · by_cases h2 : o'.symbol = symbol
          · exact Or.inr (Or.inr (hL o' (List.mem_cons_self o' L) h1 h2))
          · exact Or.inr (Or.inl h2)
        · exact Or.inl h1
      · intro x hx hxid hxsym
        exact hL x (List.mem_cons_of_mem _ hx) hxid hxsym

/-- Sample untracked order with a non-terminal status. -/
def sampleOrderNew : Order := ⟨1, "BTCUSDT", SideType.buy, 100, 1, OrderStatus.new⟩

/-- Sample order-update with terminal status Filled for the same id. -/
def sampleOrderFilled : Order := ⟨1, "BTCUSDT", SideType.buy, 100, 1, OrderStatus.filled⟩

/-- Sample book holding one tracked buy order. -/
def sampleBook : LocalActiveOrderBook := ⟨[sampleOrderNew], []⟩

/-- C2 counterexample: the claim fails as stated — a notification carrying
an untracked id with the configured symbol and a non-terminal status (here
New) falls into the default branch of the switch and is inserted into the
book, so the book does not stay unchanged. -/
theorem claim2_untracked_nonterminal_inserts :
    trackedIn NewLocalActiveOrderBook sampleOrderNew.orderID = false ∧
    sampleOrderNew.symbol = sampleStrategy.symbol ∧
    handleOrderUpdate sampleStrategy.symbol NewLocalActiveOrderBook
      sampleOrderNew ≠ NewLocalActiveOrderBook :=
  ⟨by decide, by decide, by decide⟩

/-- C2 (amended): a notification for an instrument other than the
configured one always leaves the book unchanged, and a notification for an
untracked id leaves the book unchanged when its status is terminal
(Filled, Canceled, or Rejected); an untracked id with a non-terminal
status is instead inserted into the book. -/
theorem claim2_frame_amended (symbol : String) (b : LocalActiveOrderBook)
    (o : Order)
    (hcase : o.symbol ≠ symbol ∨
      (trackedIn b o.orderID = false ∧
        (o.status = OrderStatus.filled ∨ o.status = OrderStatus.canceled ∨
         o.status = OrderStatus.rejected))) :
    handleOrderUpdate symbol b o = b := by
  by_cases hs : o.symbol = symbol
  · rcases hcase with hsym' | ⟨huntracked, hterm⟩
    · exact absurd hs hsym'
    · rw [handleOrderUpdate_terminal symbol b o hs hterm]
      exact Delete_of_untracked b o huntracked
  · simp [handleOrderUpdate, hs]

/-- C2 witness: a Filled notification for an id absent from the sample book
leaves the book exactly as it was. -/
theorem claim2_frame_amended_witness :
    trackedIn sampleBook 2 = false ∧
    handleOrderUpdate sampleStrategy.symbol sampleBook
      ⟨2, "BTCUSDT", SideType.sell, 101, 1, OrderStatus.filled⟩ = sampleBook :=
  ⟨by decide,
   claim2_frame_amended sampleStrategy.symbol sampleBook
     ⟨2, "BTCUSDT", SideType.sell, 101, 1, OrderStatus.filled⟩
     (Or.inr ⟨by decide, Or.inl rfl⟩)⟩

/-- C3 counterexample: the claim fails as stated — after a Filled
notification for id 1 is processed (removing it), a later out-of-order
non-terminal notification for the same id falls into the default branch
and re-inserts it, so the id reappears as resting. -/
theorem claim3_terminal_resurrected :
    trackedIn (handleOrderUpdate sampleStrategy.symbol NewLocalActiveOrderBook
        sampleOrderFilled) sampleOrderFilled.orderID = false ∧
    trackedIn (handleOrderUpdate sampleStrategy.symbol
        (handleOrderUpdate sampleStrategy.symbol NewLocalActiveOrderBook
          sampleOrderFilled) sampleOrderNew) sampleOrderFilled.orderID = true :=
  ⟨by decide, by decide⟩

/-- C3 (amended): after a terminal notification (Filled, Canceled, or
Rejected) for an order id on the configured symbol is processed, the id is
absent from the book, and it remains absent across any further sequence of
notifications in which every notification for that id on the configured
symbol is again terminal; a later non-terminal notification for the id
would re-insert it. -/
theorem claim3_terminal_absence_amended (symbol : String)
    (b : LocalActiveOrderBook) (o : Order) (L : List Order)
    (hsym : o.symbol = symbol)
    (hterm : o.status = OrderStatus.filled ∨ o.status = OrderStatus.canceled ∨
             o.status = OrderStatus.rejected)
    (hL : ∀ o' ∈ L, o'.orderID = o.orderID → o'.symbol = symbol →
      (o'.status = OrderStatus.filled ∨ o'.status = OrderStatus.canceled ∨
       o'.status = OrderStatus.rejected)) :
    trackedIn (L.foldl (handleOrderUpdate symbol)
      (handleOrderUpdate symbol b o)) o.orderID = false := by
  apply trackedIn_foldl_pres symbol o.orderID L _ _ hL
  rw [handleOrderUpdate_terminal symbol b o hsym hterm]
  exact trackedIn_Delete_self b o

/-- C3 witness: a Filled notification for the tracked id 1 followed by a
duplicate Canceled notification for id 1 and an unrelated New notification
for id 2 leaves id 1 absent. -/
theorem claim3_terminal_absence_amended_witness :
    (∀ o' ∈ [(⟨1, "BTCUSDT", SideType.buy, 100, 1, OrderStatus.canceled⟩ : Order),
             ⟨2, "BTCUSDT", SideType.sell, 110, 1, OrderStatus.new⟩],
      o'.orderID = sampleOrderFilled.orderID → o'.symbol = sampleStrategy.symbol →
      (o'.status = OrderStatus.filled ∨ o'.status = OrderStatus.canceled ∨
       o'.status = OrderStatus.rejected)) ∧
    trackedIn
      (List.foldl (handleOrderUpdate sampleStrategy.symbol)
        (handleOrderUpdate sampleStrategy.symbol sampleBook sampleOrderFilled)
        [⟨1, "BTCUSDT", SideType.buy, 100, 1, OrderStatus.canceled⟩,
         ⟨2, "BTCUSDT", SideType.sell, 110, 1, OrderStatus.new⟩])
      sampleOrderFilled.orderID = false :=
  ⟨by decide,
   claim3_terminal_absence_amended sampleStrategy.symbol sampleBook
     sampleOrderFilled
     [⟨1, "BTCUSDT", SideType.buy, 100, 1, OrderStatus.canceled⟩,
      ⟨2, "BTCUSDT", SideType.sell, 110, 1, OrderStatus.new⟩]
     (by decide) (by decide) (by decide)⟩

/-- C5: for a tracked order, processing a notification for its id on the
configured symbol with status Filled removes it from the book — the
handler's effect equals `Delete`, the id is tracked nowhere afterwards, and
no order with that id remains on either side or in the snapshot — and a
Canceled or Rejected notification has the identical removal effect (all
three terminal statuses reduce to the same `Delete`). -/
theorem claim5_terminal_removal (symbol : String) (b : LocalActiveOrderBook)
    (o : Order) (_htracked : trackedIn b o.orderID = true)
    (hsym : o.symbol = symbol)
    (hterm : o.status = OrderStatus.filled ∨ o.status = OrderStatus.canceled ∨
             o.status = OrderStatus.rejected) :
    handleOrderUpdate symbol b o = b.Delete o ∧
    trackedIn (handleOrderUpdate symbol b o) o.orderID = false ∧
    (∀ x ∈ (handleOrderUpdate symbol b o).bids, x.orderID ≠ o.orderID) ∧
    (∀ x ∈ (handleOrderUpdate symbol b o).asks, x.orderID ≠ o.orderID) ∧
    (∀ x ∈ (handleOrderUpdate symbol b o).Orders, x.orderID ≠ o.orderID) := by
  have he := handleOrderUpdate_terminal symbol b o hsym hterm
  have habsent : trackedIn (handleOrderUpdate symbol b o) o.orderID = false := by
    rw [he]; exact trackedIn_Delete_self b o
  have hall := trackedIn_false_iff.mp habsent
  refine ⟨he, habsent, ?_, ?_, ?_⟩
  · intro x hx; exact hall x (List.mem_append_left _ hx)
  · intro x hx; exact hall x (List.mem_append_right _ hx)
  · intro x hx; exact hall x hx

/-- C5 witness: a Canceled notification for the tracked id 1 of the sample
book removes it from counts and snapshot. -/
theorem claim5_terminal_removal_witness :
    trackedIn sampleBook 1 = true ∧
    trackedIn (handleOrderUpdate sampleStrategy.symbol sampleBook
      ⟨1, "BTCUSDT", SideType.buy, 100, 1, OrderStatus.canceled⟩) 1 = false :=
  ⟨by decide,
   (claim5_terminal_removal sampleStrategy.symbol sampleBook
     ⟨1, "BTCUSDT", SideType.buy, 100, 1, OrderStatus.canceled⟩
     (by decide) (by decide) (Or.inr (Or.inl rfl))).2.1⟩

/-- C1: with available balances on both sides and positive band edges, each
side with deficit `GridNum − currentCount ≤ 0` produces no orders, and each
side with positive deficit produces exactly `deficit` limit orders whose
prices form an arithmetic sequence starting at the band edge and moving
away by one `gridPips` step per rung (descending from the lower band for
buys, ascending from the upper band for sells), each with the configured
quantity, side, symbol and GTC time-in-force. -/
theorem claim1_planner_ladder (s : Strategy) (balances : List (String × ℚ))
    (downBand upBand : ℚ) (book : LocalActiveOrderBook) (qa ba : ℚ)
    (hq : lookupBal balances s.market.quoteCurrency = some qa) (hqpos : 0 < qa)
    (hb : lookupBal balances s.market.baseCurrency = some ba) (hbpos : 0 < ba)
    (hdown : 0 < downBand) (hup : 0 < upBand) :
    (s.gridNum - (book.NumOfBids : Int) ≤ 0 →
        bidSubmitOrders s balances downBand book.NumOfBids = []) ∧
    (s.gridNum - (book.NumOfAsks : Int) ≤ 0 →
        askSubmitOrders s balances upBand book.NumOfAsks = []) ∧
    (0 < s.gridNum - (book.NumOfBids : Int) →
        (bidSubmitOrders s balances downBand book.NumOfBids).length =
          (s.gridNum - (book.NumOfBids : Int)).toNat ∧
        ∀ i (h : i < (bidSubmitOrders s balances downBand book.NumOfBids).length),
          (bidSubmitOrders s balances downBand book.NumOfBids).get ⟨i, h⟩ =
            { symbol := s.symbol, side := SideType.buy, orderType := OrderType.limit,
              quantity := s.baseQuantity, price := downBand - (i : ℚ) * s.gridPips,
              timeInForce := "GTC" }) ∧
    (0 < s.gridNum - (book.NumOfAsks : Int) →
        (askSubmitOrders s balances upBand book.NumOfAsks).length =
          (s.gridNum - (book.NumOfAsks : Int)).toNat ∧
        ∀ i (h : i < (askSubmitOrders s balances upBand book.NumOfAsks).length),
          (askSubmitOrders s balances upBand book.NumOfAsks).get ⟨i, h⟩ =
            { symbol := s.symbol, side := SideType.sell, orderType := OrderType.limit,
              quantity := s.baseQuantity, price := upBand + (i : ℚ) * s.gridPips,
              timeInForce := "GTC" }) := by
  refine ⟨fun hdef => bidSubmitOrders_nonpos s balances downBand _ hdef,
          fun hdef => askSubmitOrders_nonpos s balances upBand _ hdef,
          fun hdef => ?_, fun hdef => ?_⟩
  · rw [bidSubmitOrders_pos s balances downBand _ qa hq hqpos hdef hdown]
    exact ⟨bidOrdersFrom_length s downBand _,
           fun i h => bidOrdersFrom_get s downBand _ i h⟩
  · rw [askSubmitOrders_pos s balances upBand _ ba hb hbpos hdef hup]
    exact ⟨askOrdersFrom_length s upBand _,
           fun i h => askOrdersFrom_get s upBand _ i h⟩

/-- C1 witness: the spec's concrete scenario — empty book, N = 3, step 1,
lower band 100, upper band 110, sufficient balances — yields exactly 3 buy
orders at 100, 99, 98 and 3 sell orders at 110, 111, 112. -/
theorem claim1_planner_ladder_witness :
    (lookupBal sampleBalances sampleStrategy.market.quoteCurrency = some 10000 ∧
     lookupBal sampleBalances sampleStrategy.market.baseCurrency = some 10 ∧
     (0 : ℚ) < 10000 ∧ (0 : ℚ) < 10 ∧ (0 : ℚ) < 100 ∧ (0 : ℚ) < 110) ∧
    (bidSubmitOrders sampleStrategy sampleBalances 100
        NewLocalActiveOrderBook.NumOfBids).length =
      (sampleStrategy.gridNum - (NewLocalActiveOrderBook.NumOfBids : Int)).toNat ∧
    bidSubmitOrders sampleStrategy sampleBalances 100
        NewLocalActiveOrderBook.NumOfBids =
      [⟨"BTCUSDT", SideType.buy, OrderType.limit, 1, 100, "GTC"⟩,
       ⟨"BTCUSDT", SideType.buy, OrderType.limit, 1, 99, "GTC"⟩,
       ⟨"BTCUSDT", SideType.buy, OrderType.limit, 1, 98, "GTC"⟩] ∧
    askSubmitOrders sampleStrategy sampleBalances 110
        NewLocalActiveOrderBook.NumOfAsks =
      [⟨"BTCUSDT", SideType.sell, OrderType.limit, 1, 110, "GTC"⟩,
       ⟨"BTCUSDT", SideType.sell, OrderType.limit, 1, 111, "GTC"⟩,
       ⟨"BTCUSDT", SideType.sell, OrderType.limit, 1, 112, "GTC"⟩] :=
  ⟨⟨by decide, by decide, by decide, by decide, by decide, by decide⟩,
   ((claim1_planner_ladder sampleStrategy sampleBalances 100 110
       NewLocalActiveOrderBook 10000 10 (by decide) (by decide) (by decide)
       (by decide) (by decide) (by decide)).2.2.1 (by decide)).1,
   by norm_num [bidSubmitOrders, lookupBal, sampleBalances, sampleStrategy,
     sampleMarket, NewLocalActiveOrderBook, LocalActiveOrderBook.NumOfBids,
     bidOrdersFrom],
   by
     have hne : ("USDT" : String) ≠ "BTC" := by decide
     norm_num [askSubmitOrders, lookupBal, sampleBalances, sampleStrategy,
       sampleMarket, NewLocalActiveOrderBook, LocalActiveOrderBook.NumOfAsks,
       askOrdersFrom, hne]⟩

/-- An exchange-side view of a created order: the assigned id plus the
request's fields, resting with status New. -/
def orderOfRequest (id : Nat) (r : SubmitOrder) : Order :=
  ⟨id, r.symbol, r.side, r.price, r.quantity, OrderStatus.new⟩

/-- Assign consecutive fresh ids to a batch of requests. -/
def assignIDs (next : Nat) : List SubmitOrder → List Order
  | [] => []
  | r :: rs => orderOfRequest next r :: assignIDs (next + 1) rs

/-- The canonical honest exchange: every submission succeeds and returns
one created order per request, with consecutive fresh ids drawn from the
threaded counter. -/
def freshExec : OrderExecutor Nat :=
  fun next reqs => (Except.ok (assignIDs next reqs), next + reqs.length)

/-- An exchange whose submissions always fail. -/
def failExec : OrderExecutor Unit :=
  fun st _ => (Except.error (), st)

theorem updateBidOrders_error {σ : Type} (submit : OrderExecutor σ)
    (s : Strategy) (balances : List (String × ℚ)) (downBand : ℚ)
    (b : LocalActiveOrderBook) (st : σ)
    (herr : ∀ st' reqs, (submit st' reqs).1 = Except.error ()) :
    (updateBidOrders submit s balances downBand b st).book = b := by
  unfold updateBidOrders
  cases hsubs : bidSubmitOrders s balances downBand b.NumOfBids with
  | nil => rfl
  | cons x xs =>
      have h := herr st (x :: xs)
      rcases hsub : submit st (x :: xs) with ⟨r, st'⟩
      rw [hsub] at h
      simp only at h
      subst h
      simp [hsub]

theorem updateAskOrders_error {σ : Type} (submit : OrderExecutor σ)
    (s : Strategy) (balances : List (String × ℚ)) (upBand : ℚ)
    (b : LocalActiveOrderBook) (st : σ)
    (herr : ∀ st' reqs, (submit st' reqs).1 = Except.error ()) :
    (updateAskOrders submit s balances upBand b st).book = b := by
  unfold updateAskOrders
  cases hsubs : askSubmitOrders s balances upBand b.NumOfAsks with
  | nil => rfl
  | cons x xs =>
      have h := herr st (x :: xs)
      rcases hsub : submit st (x :: xs) with ⟨r, st'⟩
      rw [hsub] at h
      simp only at h
      subst h
      simp [hsub]

/-- C6: on a replenishment tick whose batch submission fails on every call,
each side's update leaves the book exactly as it was before the submission
attempt — the book is only mutated after a successful batch return — and no
error escapes: the update is a total function into a result state. -/
theorem claim6_submit_error_frame {σ : Type} (submit : OrderExecutor σ)
    (s : Strategy) (balances : List (String × ℚ)) (downBand upBand : ℚ)
    (b : LocalActiveOrderBook) (st st' : σ)
    (herr : ∀ st'' reqs, (submit st'' reqs).1 = Except.error ()) :
    (updateBidOrders submit s balances downBand b st).book = b ∧
    (updateAskOrders submit s balances upBand b st').book = b ∧
    (updateOrders submit s balances downBand upBand b st).book = b :=
  by
  have hbid := updateBidOrders_error submit s balances downBand b st herr
  have hask := updateAskOrders_error submit s balances upBand b st' herr
  refine ⟨hbid, hask, ?_⟩
  simp only [updateOrders]
  by_cases h1 : (b.NumOfBids : Int) < s.gridNum
  · rw [if_pos h1, updateBidOrders_error submit s balances downBand b st herr]
    by_cases h2 : (b.NumOfAsks : Int) < s.gridNum
    · rw [if_pos h2]
      exact updateAskOrders_error submit s balances upBand b _ herr
    · rw [if_neg h2]
  · rw [if_neg h1]
    simp only
    by_cases h2 : (b.NumOfAsks : Int) < s.gridNum
    · rw [if_pos h2]
      exact updateAskOrders_error submit s balances upBand b _ herr
    · rw [if_neg h2]

/-- C6 witness: the sample tick against an always-failing gateway attempts
a non-empty batch on each side yet leaves the empty book empty. -/
theorem claim6_submit_error_frame_witness :
    (updateBidOrders failExec sampleStrategy sampleBalances 100
      NewLocalActiveOrderBook ()).book = NewLocalActiveOrderBook ∧
    (updateAskOrders failExec sampleStrategy sampleBalances 110
      NewLocalActiveOrderBook ()).book = NewLocalActiveOrderBook ∧
    (updateOrders failExec sampleStrategy sampleBalances 100 110
      NewLocalActiveOrderBook ()).book = NewLocalActiveOrderBook ∧
    (updateBidOrders failExec sampleStrategy sampleBalances 100
      NewLocalActiveOrderBook ()).submitted ≠ [] :=
  ⟨(claim6_submit_error_frame failExec sampleStrategy sampleBalances 100 110
      NewLocalActiveOrderBook () () (fun _ _ => rfl)).1,
   (claim6_submit_error_frame failExec sampleStrategy sampleBalances 100 110
      NewLocalActiveOrderBook () () (fun _ _ => rfl)).2.1,
   (claim6_submit_error_frame failExec sampleStrategy sampleBalances 100 110
      NewLocalActiveOrderBook () () (fun _ _ => rfl)).2.2,
   by decide⟩

theorem bidSubmitOrders_skip (s : Strategy) (balances : List (String × ℚ))
    (downBand : ℚ) (numOfBids : Nat)
    (h : lookupBal balances s.market.quoteCurrency = none ∨
      (∃ a, lookupBal balances s.market.quoteCurrency = some a ∧ a ≤ 0) ∨
      downBand ≤ 0) :
    bidSubmitOrders s balances downBand numOfBids = [] := by
  rcases h with h | ⟨a, ha, hle⟩ | h
  · simp [bidSubmitOrders, h]
  · simp [bidSubmitOrders, ha, hle]
  · unfold bidSubmitOrders
    cases hl : lookupBal balances s.market.quoteCurrency with
    | none => rfl
    | some a =>
        by_cases h1 : a ≤ 0
        · simp [h1]
        · simp only [if_neg h1]
          by_cases h2 : s.gridNum - (numOfBids : Int) ≤ 0
          · simp [h2]
          · simp [h2, h]

theorem askSubmitOrders_skip (s : Strategy) (balances : List (String × ℚ))
    (upBand : ℚ) (numOfAsks : Nat)
    (h : lookupBal balances s.market.baseCurrency = none ∨
      (∃ a, lookupBal balances s.market.baseCurrency = some a ∧ a ≤ 0) ∨
      upBand ≤ 0) :
    askSubmitOrders s balances upBand numOfAsks = [] := by
  rcases h with h | ⟨a, ha, hle⟩ | h
  · simp [askSubmitOrders, h]
  · simp [askSubmitOrders, ha, hle]
  · unfold askSubmitOrders
    cases hl : lookupBal balances s.market.baseCurrency with
    | none => rfl
    | some a =>
        by_cases h1 : a ≤ 0
        · simp [h1]
        · simp only [if_neg h1]
          by_cases h2 : s.gridNum - (numOfAsks : Int) ≤ 0
          · simp [h2]
          · simp [h2, h]

theorem updateBidOrders_nil {σ : Type} (submit : OrderExecutor σ)
    (s : Strategy) (balances : List (String × ℚ)) (downBand : ℚ)
    (b : LocalActiveOrderBook) (st : σ)
    (h : bidSubmitOrders s balances downBand b.NumOfBids = []) :
    updateBidOrders submit s balances downBand b st = ⟨b, [], st⟩ := by
  simp only [updateBidOrders, h]

theorem updateAskOrders_nil {σ : Type} (submit : OrderExecutor σ)
    (s : Strategy) (balances : List (String × ℚ)) (upBand : ℚ)
    (b : LocalActiveOrderBook) (st : σ)
    (h : askSubmitOrders s balances upBand b.NumOfAsks = []) :
    updateAskOrders submit s balances upBand b st = ⟨b, [], st⟩ := by
  simp only [updateAskOrders, h]

/-- C7: on a tick, a side whose relevant balance (quote for buys, base for
sells) is absent or non-positive, or whose relevant band edge is ≤ 0,
submits zero orders and leaves the book and executor state untouched — no
error is raised, the update being total — while in the whole-tick update
the other side proceeds exactly as it would alone on the same book. -/
theorem claim7_skip_side {σ : Type} (submit : OrderExecutor σ) (s : Strategy)
    (balances : List (String × ℚ)) (downBand upBand : ℚ)
    (b : LocalActiveOrderBook) (st : σ) :
    ((lookupBal balances s.market.quoteCurrency = none ∨
      (∃ a, lookupBal balances s.market.quoteCurrency = some a ∧ a ≤ 0) ∨
      downBand ≤ 0) →
        updateBidOrders submit s balances downBand b st = ⟨b, [], st⟩) ∧
    ((lookupBal balances s.market.baseCurrency = none ∨
      (∃ a, lookupBal balances s.market.baseCurrency = some a ∧ a ≤ 0) ∨
      upBand ≤ 0) →
        updateAskOrders submit s balances upBand b st = ⟨b, [], st⟩) ∧
    ((lookupBal balances s.market.quoteCurrency = none ∨
      (∃ a, lookupBal balances s.market.quoteCurrency = some a ∧ a ≤ 0) ∨
      downBand ≤ 0) →
        updateOrders submit s balances downBand upBand b st =
          { book := (if (b.NumOfAsks : Int) < s.gridNum
                     then updateAskOrders submit s balances upBand b st
                     else ⟨b, [], st⟩).book,
            bidSubmitted := [],
            askSubmitted := (if (b.NumOfAsks : Int) < s.gridNum
                             then updateAskOrders submit s balances upBand b st
                             else ⟨b, [], st⟩).submitted,
            st := (if (b.NumOfAsks : Int) < s.gridNum
                   then updateAskOrders submit s balances upBand b st
                   else ⟨b, [], st⟩).st }) := by
  have hbid : ∀ (b' : LocalActiveOrderBook) (st' : σ),
      (lookupBal balances s.market.quoteCurrency = none ∨
        (∃ a, lookupBal balances s.market.quoteCurrency = some a ∧ a ≤ 0) ∨
        downBand ≤ 0) →
      updateBidOrders submit s balances downBand b' st' = ⟨b', [], st'⟩ :=
    fun b' st' h =>
      updateBidOrders_nil submit s balances downBand b' st'
        (bidSubmitOrders_skip s balances downBand b'.NumOfBids h)
  refine ⟨hbid b st, ?_, ?_⟩
  · intro h
    exact updateAskOrders_nil submit s balances upBand b st
      (askSubmitOrders_skip s balances upBand b.NumOfAsks h)
  · intro h
    simp only [updateOrders]
    by_cases h1 : (b.NumOfBids : Int) < s.gridNum
    · rw [if_pos h1, hbid b st h]
    · rw [if_neg h1]

/-- C7 witness: with no quote-currency balance at all, a tick on the empty
book submits zero buy orders, no error is raised, and the sell side still
submits its full ladder. -/
theorem claim7_skip_side_witness :
    lookupBal [("BTC", (10 : ℚ))] sampleStrategy.market.quoteCurrency = none ∧
    (updateOrders freshExec sampleStrategy [("BTC", (10 : ℚ))] 100 110
      NewLocalActiveOrderBook 0).bidSubmitted = [] ∧
    (updateOrders freshExec sampleStrategy [("BTC", (10 : ℚ))] 100 110
      NewLocalActiveOrderBook 0).askSubmitted.length = 3 :=
  ⟨by decide,
   by
     rw [(claim7_skip_side freshExec sampleStrategy [("BTC", (10 : ℚ))] 100 110
       NewLocalActiveOrderBook 0).2.2 (Or.inl (by decide))],
   by decide⟩

/-- All ids resting in the book are below the bound `m` — i.e. every id the
exchange counter has not yet reached is fresh for this book. -/
def idsBelow (b : LocalActiveOrderBook) (m : Nat) : Prop :=
  ∀ x ∈ b.bids ++ b.asks, x.orderID < m

theorem idsBelow_empty (m : Nat) : idsBelow NewLocalActiveOrderBook m := by
  intro x hx
  simp [NewLocalActiveOrderBook] at hx

theorem untracked_of_idsBelow {b : LocalActiveOrderBook} {m : Nat}
    (h : idsBelow b m) (k : Nat) (hk : m ≤ k) : trackedIn b k = false :=
  trackedIn_false_iff.mpr (fun x hx => by have := h x hx; omega)

theorem bidOrdersFrom_side (s : Strategy) (p : ℚ) (n : Nat) :
    ∀ r ∈ bidOrdersFrom s p n, r.side = SideType.buy := by
  induction n generalizing p with
  | zero => intro r hr; simp [bidOrdersFrom] at hr
  | succ n ih =>
      intro r hr
      simp only [bidOrdersFrom] at hr
      rcases List.mem_cons.mp hr with rfl | hr'
      · rfl
      · exact ih (p - s.gridPips) r hr'

theorem askOrdersFrom_side (s : Strategy) (p : ℚ) (n : Nat) :
    ∀ r ∈ askOrdersFrom s p n, r.side = SideType.sell := by
  induction n generalizing p with
  | zero => intro r hr; simp [askOrdersFrom] at hr
  | succ n ih =>
      intro r hr
      simp only [askOrdersFrom] at hr
      rcases List.mem_cons.mp hr with rfl | hr'
      · rfl
      · exact ih (p + s.gridPips) r hr'

theorem bidSubmitOrders_side (s : Strategy) (bal : List (String × ℚ))
    (down : ℚ) (k : Nat) :
    ∀ r ∈ bidSubmitOrders s bal down k, r.side = SideType.buy := by
  intro r hr
  unfold bidSubmitOrders at hr
  cases hl : lookupBal bal s.market.quoteCurrency with
  | none => rw [hl] at hr; simp at hr
  | some a =>
      rw [hl] at hr
      simp only at hr
      split at hr
      · simp at hr
      · split at hr
        · simp at hr
        · split at hr
          · simp at hr
          · exact bidOrdersFrom_side s down _ r hr

theorem askSubmitOrders_side (s : Strategy) (bal : List (String × ℚ))
    (up : ℚ) (k : Nat) :
    ∀ r ∈ askSubmitOrders s bal up k, r.side = SideType.sell := by
  intro r hr
  unfold askSubmitOrders at hr
  cases hl : lookupBal bal s.market.baseCurrency with
  | none => rw [hl] at hr; simp at hr
  | some a =>
      rw [hl] at hr
      simp only at hr
      split at hr
      · simp at hr
      · split at hr
        · simp at hr
        · split at hr
          · simp at hr
          · exact askOrdersFrom_side s up _ r hr

theorem bidSubmitOrders_ne_nil (s : Strategy) (bal : List (String × ℚ))
    (down : ℚ) (k : Nat) (h : bidSubmitOrders s bal down k ≠ []) :
    0 < s.gridNum - (k : Int) ∧
    (bidSubmitOrders s bal down k).length = (s.gridNum - (k : Int)).toNat := by
  by_cases hdef : 0 < s.gridNum - (k : Int)
  · refine ⟨hdef, ?_⟩
    cases hl : lookupBal bal s.market.quoteCurrency with
    | none => exact absurd (bidSubmitOrders_skip s bal down k (Or.inl hl)) h
    | some a =>
        by_cases h1 : a ≤ 0
        · exact absurd
            (bidSubmitOrders_skip s bal down k (Or.inr (Or.inl ⟨a, hl, h1⟩))) h
        · by_cases h3 : down ≤ 0
          · exact absurd
              (bidSubmitOrders_skip s bal down k (Or.inr (Or.inr h3))) h
          · rw [bidSubmitOrders_pos s bal down k a hl (not_le.mp h1) hdef
              (not_le.mp h3)]
            exact bidOrdersFrom_length s down _
  · exact absurd (bidSubmitOrders_nonpos s bal down k (by omega)) h

theorem askSubmitOrders_ne_nil (s : Strategy) (bal : List (String × ℚ))
    (up : ℚ) (k : Nat) (h : askSubmitOrders s bal up k ≠ []) :
    0 < s.gridNum - (k : Int) ∧
    (askSubmitOrders s bal up k).length = (s.gridNum - (k : Int)).toNat := by
  by_cases hdef : 0 < s.gridNum - (k : Int)
  · refine ⟨hdef, ?_⟩
    cases hl : lookupBal bal s.market.baseCurrency with
    | none => exact absurd (askSubmitOrders_skip s bal up k (Or.inl hl)) h
    | some a =>
        by_cases h1 : a ≤ 0
        · exact absurd
            (askSubmitOrders_skip s bal up k (Or.inr (Or.inl ⟨a, hl, h1⟩))) h
        · by_cases h3 : up ≤ 0
          · exact absurd
              (askSubmitOrders_skip s bal up k (Or.inr (Or.inr h3))) h
          · rw [askSubmitOrders_pos s bal up k a hl (not_le.mp h1) hdef
              (not_le.mp h3)]
            exact askOrdersFrom_length s up _
  · exact absurd (askSubmitOrders_nonpos s bal up k (by omega)) h

theorem addAssign_buy (reqs : List SubmitOrder) (next : Nat)
    (b : LocalActiveOrderBook) (hb : idsBelow b next)
    (hside : ∀ r ∈ reqs, r.side = SideType.buy) :
    (b.Add (assignIDs next reqs)).NumOfBids = b.NumOfBids + reqs.length ∧
    (b.Add (assignIDs next reqs)).NumOfAsks = b.NumOfAsks ∧
    idsBelow (b.Add (assignIDs next reqs)) (next + reqs.length) := by
  induction reqs generalizing b next with
  | nil =>
      refine ⟨rfl, rfl, ?_⟩
      simpa using hb
  | cons r rs ih =>
      have hr : r.side = SideType.buy := hside r (List.mem_cons_self r rs)
      have hDel : b.Delete (orderOfRequest next r) = b :=
        Delete_of_untracked b _ (untracked_of_idsBelow hb next (le_refl next))
      have haddOne : b.addOne (orderOfRequest next r) =
          ⟨b.bids ++ [orderOfRequest next r], b.asks⟩ := by
        have hside' : (orderOfRequest next r).side = SideType.buy := hr
        simp only [LocalActiveOrderBook.addOne, hside', hr, hDel]
      have hb' : idsBelow (b.addOne (orderOfRequest next r)) (next + 1) := by
        rw [haddOne]
        intro x hx
        rcases List.mem_append.mp hx with hx1 | hx2
        · rcases List.mem_append.mp hx1 with hx1' | hx1''
          · have := hb x (List.mem_append_left _ hx1')
            omega
          · rcases List.mem_singleton.mp hx1'' with rfl
            simp [orderOfRequest]
        · have := hb x (List.mem_append_right _ hx2)
          omega
      obtain ⟨h1, h2, h3⟩ := ih (next + 1) (b.addOne (orderOfRequest next r)) hb'
        (fun x hx => hside x (List.mem_cons_of_mem r hx))
      have hcons : b.Add (assignIDs next (r :: rs)) =
          (b.addOne (orderOfRequest next r)).Add (assignIDs (next + 1) rs) := by
        simp [assignIDs, LocalActiveOrderBook.Add]
      have hlenB : (b.addOne (orderOfRequest next r)).NumOfBids = b.NumOfBids + 1 := by
        rw [haddOne]
        simp [LocalActiveOrderBook.NumOfBids]
      have hlenA : (b.addOne (orderOfRequest next r)).NumOfAsks = b.NumOfAsks := by
        rw [haddOne]
        rfl
      refine ⟨?_, ?_, ?_⟩
      · rw [hcons, h1, hlenB]
        simp [List.length_cons]
        omega
      · rw [hcons, h2, hlenA]
      · rw [hcons]
        have heq : next + (r :: rs).length = next + 1 + rs.length := by
          simp [List.length_cons]
          omega
        rw [heq]
        exact h3

theorem addAssign_sell (reqs : List SubmitOrder) (next : Nat)
    (b : LocalActiveOrderBook) (hb : idsBelow b next)
    (hside : ∀ r ∈ reqs, r.side = SideType.sell) :
    (b.Add (assignIDs next reqs)).NumOfAsks = b.NumOfAsks + reqs.length ∧
    (b.Add (assignIDs next reqs)).NumOfBids = b.NumOfBids ∧
    idsBelow (b.Add (assignIDs next reqs)) (next + reqs.length) := by
  induction reqs generalizing b next with
  | nil =>
      refine ⟨rfl, rfl, ?_⟩
      simpa using hb
  | cons r rs ih =>
      have hr : r.side = SideType.sell := hside r (List.mem_cons_self r rs)
      have hDel : b.Delete (orderOfRequest next r) = b :=
        Delete_of_untracked b _ (untracked_of_idsBelow hb next (le_refl next))
      have haddOne : b.addOne (orderOfRequest next r) =
          ⟨b.bids, b.asks ++ [orderOfRequest next r]⟩ := by
        have hside' : (orderOfRequest next r).side = SideType.sell := hr
        simp only [LocalActiveOrderBook.addOne, hside', hr, hDel]
      have hb' : idsBelow (b.addOne (orderOfRequest next r)) (next + 1) := by
        rw [haddOne]
        intro x hx
        rcases List.mem_append.mp hx with hx1 | hx2
        · have := hb x (List.mem_append_left _ hx1)
          omega
        · rcases List.mem_append.mp hx2 with hx2' | hx2''
          · have := hb x (List.mem_append_right _ hx2')
            omega
          · rcases List.mem_singleton.mp hx2'' with rfl
            simp [orderOfRequest]
      obtain ⟨h1, h2, h3⟩ := ih (next + 1) (b.addOne (orderOfRequest next r)) hb'
        (fun x hx => hside x (List.mem_cons_of_mem r hx))
      have hcons : b.Add (assignIDs next (r :: rs)) =
          (b.addOne (orderOfRequest next r)).Add (assignIDs (next + 1) rs) := by
        simp [assignIDs, LocalActiveOrderBook.Add]
      have hlenA : (b.addOne (orderOfRequest next r)).NumOfAsks = b.NumOfAsks + 1 := by
        rw [haddOne]
        simp [LocalActiveOrderBook.NumOfAsks]
      have hlenB : (b.addOne (orderOfRequest next r)).NumOfBids = b.NumOfBids := by
        rw [haddOne]
        rfl
      refine ⟨?_, ?_, ?_⟩
      · rw [hcons, h1, hlenA]
        simp [List.length_cons]
        omega
      · rw [hcons, h2, hlenB]
      · rw [hcons]
        have heq : next + (r :: rs).length = next + 1 + rs.length := by
          simp [List.length_cons]
          omega
        rw [heq]
        exact h3

theorem updateBid_fresh (s : Strategy) (bal : List (String × ℚ)) (down : ℚ)
    (b : LocalActiveOrderBook) (n : Nat) (hb : idsBelow b n) :
    (updateBidOrders freshExec s bal down b n).book.NumOfBids =
      b.NumOfBids + (bidSubmitOrders s bal down b.NumOfBids).length ∧
    (updateBidOrders freshExec s bal down b n).book.NumOfAsks = b.NumOfAsks ∧
    idsBelow (updateBidOrders freshExec s bal down b n).book
      (updateBidOrders freshExec s bal down b n).st := by
  cases hsubs : bidSubmitOrders s bal down b.NumOfBids with
  | nil =>
      rw [updateBidOrders_nil freshExec s bal down b n hsubs]
      exact ⟨rfl, rfl, hb⟩
  | cons x xs =>
      have hside : ∀ r ∈ (x :: xs), r.side = SideType.buy := by
        intro r hr
        apply bidSubmitOrders_side s bal down b.NumOfBids
        rw [hsubs]
        exact hr
      have hupd : updateBidOrders freshExec s bal down b n =
          ⟨b.Add (assignIDs n (x :: xs)), x :: xs, n + (x :: xs).length⟩ := by
        simp only [updateBidOrders, hsubs, freshExec]
      obtain ⟨h1, h2, h3⟩ := addAssign_buy (x :: xs) n b hb hside
      rw [hupd]
      exact ⟨h1, h2, h3⟩

theorem updateAsk_fresh (s : Strategy) (bal : List (String × ℚ)) (up : ℚ)
    (b : LocalActiveOrderBook) (n : Nat) (hb : idsBelow b n) :
    (updateAskOrders freshExec s bal up b n).book.NumOfAsks =
      b.NumOfAsks + (askSubmitOrders s bal up b.NumOfAsks).length ∧
    (updateAskOrders freshExec s bal up b n).book.NumOfBids = b.NumOfBids ∧
    idsBelow (updateAskOrders freshExec s bal up b n).book
      (updateAskOrders freshExec s bal up b n).st := by
  cases hsubs : askSubmitOrders s bal up b.NumOfAsks with
  | nil =>
      rw [updateAskOrders_nil freshExec s bal up b n hsubs]
      exact ⟨rfl, rfl, hb⟩
  | cons x xs =>
      have hside : ∀ r ∈ (x :: xs), r.side = SideType.sell := by
        intro r hr
        apply askSubmitOrders_side s bal up b.NumOfAsks
        rw [hsubs]
        exact hr
      have hupd : updateAskOrders freshExec s bal up b n =
          ⟨b.Add (assignIDs n (x :: xs)), x :: xs, n + (x :: xs).length⟩ := by
        simp only [updateAskOrders, hsubs, freshExec]
      obtain ⟨h1, h2, h3⟩ := addAssign_sell (x :: xs) n b hb hside
      rw [hupd]
      exact ⟨h1, h2, h3⟩

/-- The bid half of `updateOrders` under the honest exchange: run the bid
update only when `Bids.Len() < GridNum`. -/
def bidPhase (s : Strategy) (bal : List (String × ℚ)) (down : ℚ)
    (b : LocalActiveOrderBook) (n : Nat) : SideResult Nat :=
  if (b.NumOfBids : Int) < s.gridNum
  then updateBidOrders freshExec s bal down b n else ⟨b, [], n⟩

/-- The ask half of `updateOrders` under the honest exchange: run the ask
update only when `Asks.Len() < GridNum`. -/
def askPhase (s : Strategy) (bal : List (String × ℚ)) (up : ℚ)
    (b : LocalActiveOrderBook) (n : Nat) : SideResult Nat :=
  if (b.NumOfAsks : Int) < s.gridNum
  then updateAskOrders freshExec s bal up b n else ⟨b, [], n⟩

theorem updateOrders_fresh_eq (s : Strategy) (bal : List (String × ℚ))
    (down up : ℚ) (b : LocalActiveOrderBook) (n : Nat) :
    updateOrders freshExec s bal down up b n =
      ⟨(askPhase s bal up (bidPhase s bal down b n).book
          (bidPhase s bal down b n).st).book,
       (bidPhase s bal down b n).submitted,
       (askPhase s bal up (bidPhase s bal down b n).book
          (bidPhase s bal down b n).st).submitted,
       (askPhase s bal up (bidPhase s bal down b n).book
          (bidPhase s bal down b n).st).st⟩ := rfl

theorem bidPhase_post (s : Strategy) (bal : List (String × ℚ)) (down : ℚ)
    (b : LocalActiveOrderBook) (n : Nat) (hb : idsBelow b n) :
    (bidPhase s bal down b n).book.NumOfAsks = b.NumOfAsks ∧
    idsBelow (bidPhase s bal down b n).book (bidPhase s bal down b n).st ∧
    (bidSubmitOrders s bal down (bidPhase s bal down b n).book.NumOfBids = []
      ∨ ¬(((bidPhase s bal down b n).book.NumOfBids : Int) < s.gridNum)) := by
  unfold bidPhase
  by_cases hgate : (b.NumOfBids : Int) < s.gridNum
  · rw [if_pos hgate]
    obtain ⟨h1, h2, h3⟩ := updateBid_fresh s bal down b n hb
    refine ⟨h2, h3, ?_⟩
    cases hsubs : bidSubmitOrders s bal down b.NumOfBids with
    | nil =>
        left
        have hcount : (updateBidOrders freshExec s bal down b n).book.NumOfBids
            = b.NumOfBids := by
          rw [h1, hsubs]
          rfl
        rw [hcount, hsubs]
    | cons x xs =>
        right
        obtain ⟨hdef, hlen⟩ := bidSubmitOrders_ne_nil s bal down b.NumOfBids
          (by rw [hsubs]; exact List.cons_ne_nil x xs)
        rw [h1, hlen]
        omega
  · rw [if_neg hgate]
    exact ⟨rfl, hb, Or.inr hgate⟩

theorem askPhase_post (s : Strategy) (bal : List (String × ℚ)) (up : ℚ)
    (b : LocalActiveOrderBook) (n : Nat) (hb : idsBelow b n) :
    (askPhase s bal up b n).book.NumOfBids = b.NumOfBids ∧
    idsBelow (askPhase s bal up b n).book (askPhase s bal up b n).st ∧
    (askSubmitOrders s bal up (askPhase s bal up b n).book.NumOfAsks = []
      ∨ ¬(((askPhase s bal up b n).book.NumOfAsks : Int) < s.gridNum)) := by
  unfold askPhase
  by_cases hgate : (b.NumOfAsks : Int) < s.gridNum
  · rw [if_pos hgate]
    obtain ⟨h1, h2, h3⟩ := updateAsk_fresh s bal up b n hb
    refine ⟨h2, h3, ?_⟩
    cases hsubs : askSubmitOrders s bal up b.NumOfAsks with
    | nil =>
        left
        have hcount : (updateAskOrders freshExec s bal up b n).book.NumOfAsks
            = b.NumOfAsks := by
          rw [h1, hsubs]
          rfl
        rw [hcount, hsubs]
    | cons x xs =>
        right
        obtain ⟨hdef, hlen⟩ := askSubmitOrders_ne_nil s bal up b.NumOfAsks
          (by rw [hsubs]; exact List.cons_ne_nil x xs)
        rw [h1, hlen]
        omega
  · rw [if_neg hgate]
    exact ⟨rfl, hb, Or.inr hgate⟩

theorem bidPhase_nil (s : Strategy) (bal : List (String × ℚ)) (down : ℚ)
    (b : LocalActiveOrderBook) (n : Nat)
    (h : bidSubmitOrders s bal down b.NumOfBids = [] ∨
         ¬((b.NumOfBids : Int) < s.gridNum)) :
    bidPhase s bal down b n = ⟨b, [], n⟩ := by
  unfold bidPhase
  rcases h with h | h
  · by_cases hgate : (b.NumOfBids : Int) < s.gridNum
    · rw [if_pos hgate]
      exact updateBidOrders_nil freshExec s bal down b n h
    · rw [if_neg hgate]
  · rw [if_neg h]

theorem askPhase_nil (s : Strategy) (bal : List (String × ℚ)) (up : ℚ)
    (b : LocalActiveOrderBook) (n : Nat)
    (h : askSubmitOrders s bal up b.NumOfAsks = [] ∨
         ¬((b.NumOfAsks : Int) < s.gridNum)) :
    askPhase s bal up b n = ⟨b, [], n⟩ := by
  unfold askPhase
  rcases h with h | h
  · by_cases hgate : (b.NumOfAsks : Int) < s.gridNum
    · rw [if_pos hgate]
      exact updateAskOrders_nil freshExec s bal up b n h
    · rw [if_neg hgate]
  · rw [if_neg h]

/-- C8: for every book state (whose resting ids lie below the exchange's id
counter), one replenishment tick against the always-successful exchange —
whose returned orders are added to the book — followed by a second tick
with the same balances and band values and no intervening fills submits no
additional orders on either side: each side is then either at target
(deficit 0) or skipped for the same reason as before. -/
theorem claim8_replenish_idempotent (s : Strategy)
    (balances : List (String × ℚ)) (downBand upBand : ℚ)
    (b : LocalActiveOrderBook) (next : Nat) (hfresh : idsBelow b next) :
    (updateOrders freshExec s balances downBand upBand
        (updateOrders freshExec s balances downBand upBand b next).book
        (updateOrders freshExec s balances downBand upBand b next).st
      ).bidSubmitted = [] ∧
    (updateOrders freshExec s balances downBand upBand
        (updateOrders freshExec s balances downBand upBand b next).book
        (updateOrders freshExec s balances downBand upBand b next).st
      ).askSubmitted = [] := by
  obtain ⟨hA1, hI1, hP1⟩ := bidPhase_post s balances downBand b next hfresh
  obtain ⟨hB2, hI2, hQ2⟩ := askPhase_post s balances upBand
    (bidPhase s balances downBand b next).book
    (bidPhase s balances downBand b next).st hI1
  set q1 := bidPhase s balances downBand b next with hq1def
  set q2 := askPhase s balances upBand q1.book q1.st with hq2def
  have hbidskip : bidSubmitOrders s balances downBand q2.book.NumOfBids = []
      ∨ ¬((q2.book.NumOfBids : Int) < s.gridNum) := by
    rw [hB2]
    exact hP1
  have h2bid : bidPhase s balances downBand q2.book q2.st = ⟨q2.book, [], q2.st⟩ :=
    bidPhase_nil s balances downBand q2.book q2.st hbidskip
  have h2ask : askPhase s balances upBand q2.book q2.st = ⟨q2.book, [], q2.st⟩ :=
    askPhase_nil s balances upBand q2.book q2.st hQ2
  show (updateOrders freshExec s balances downBand upBand q2.book q2.st
         ).bidSubmitted = [] ∧
       (updateOrders freshExec s balances downBand upBand q2.book q2.st
         ).askSubmitted = []
  rw [updateOrders_fresh_eq]
  simp only [h2bid, h2ask]
  exact ⟨trivial, trivial⟩

/-- C8 witness: on the empty book the first sample tick submits a full
3-order ladder on each side, and the second tick submits nothing. -/
theorem claim8_replenish_idempotent_witness :
    idsBelow NewLocalActiveOrderBook 0 ∧
    (updateOrders freshExec sampleStrategy sampleBalances 100 110
        NewLocalActiveOrderBook 0).bidSubmitted.length = 3 ∧
    (updateOrders freshExec sampleStrategy sampleBalances 100 110
        NewLocalActiveOrderBook 0).askSubmitted.length = 3 ∧
    (updateOrders freshExec sampleStrategy sampleBalances 100 110
        (updateOrders freshExec sampleStrategy sampleBalances 100 110
          NewLocalActiveOrderBook 0).book
        (updateOrders freshExec sampleStrategy sampleBalances 100 110
          NewLocalActiveOrderBook 0).st).bidSubmitted = [] ∧
    (updateOrders freshExec sampleStrategy sampleBalances 100 110
        (updateOrders freshExec sampleStrategy sampleBalances 100 110
          NewLocalActiveOrderBook 0).book
        (updateOrders freshExec sampleStrategy sampleBalances 100 110
          NewLocalActiveOrderBook 0).st).askSubmitted = [] :=
  ⟨idsBelow_empty 0, by decide, by decide,
   (claim8_replenish_idempotent sampleStrategy sampleBalances 100 110
      NewLocalActiveOrderBook 0 (idsBelow_empty 0)).1,
   (claim8_replenish_idempotent sampleStrategy sampleBalances 100 110
      NewLocalActiveOrderBook 0 (idsBelow_empty 0)).2⟩

/-- C10: when the configured `GridNum` is 0, `Run` replaces it with 2
before starting the loop, so the effective per-side target is at least 2. -/
theorem claim10_gridnum_default (s : Strategy) (h : s.gridNum = 0) :
    (runGridNum s).gridNum = 2 ∧ 2 ≤ (runGridNum s).gridNum := by
  simp [runGridNum, h]

/-- C10 witness: the sample configuration with `GridNum` set to 0. -/
theorem claim10_gridnum_default_witness :
    ({ sampleStrategy with gridNum := 0 } : Strategy).gridNum = 0 ∧
    (runGridNum { sampleStrategy with gridNum := 0 }).gridNum = 2 ∧
    2 ≤ (runGridNum { sampleStrategy with gridNum := 0 }).gridNum :=
  ⟨rfl, claim10_gridnum_default { sampleStrategy with gridNum := 0 } rfl⟩

end Grid
